import Mathlib

/-!
Shallow embedding of the hex-snake repository (agents.py, utils.py, snake.py,
network.py, train.py).  Grid cells are addressed by integer coordinates
`(x, y)` where `x` is the row index and `y` is the column index, exactly as in
`utils.Grid` which constructs `Cell(i, j)` for `i in range(rows)`,
`j in range(cols)`.  Cell types are stored in the grid (a total function on
coordinates); a snake's body is the list of coordinates of the cells its deque
holds, head first.
-/

set_option autoImplicit false

/-- Cell.Type from utils.py: NORMAL = 0, BOUND = 1, SNAKE = 2, BOT = 3,
FRUIT = 4. -/
inductive CellType where
  | NORMAL
  | BOUND
  | SNAKE
  | BOT
  | FRUIT
deriving DecidableEq, Repr

/-- Numeric value of a cell type, mirroring the Enum values in utils.py. -/
def CellType.val : CellType → ℕ
  | .NORMAL => 0
  | .BOUND => 1
  | .SNAKE => 2
  | .BOT => 3
  | .FRUIT => 4

/-- The playing area: shape plus the (mutable in Python) type of every cell.
Coordinates outside `[0, rows) x [0, cols)` do not exist in the Python grid
(lookup raises); the total function returns `NORMAL` there, and no claim ever
reads such a coordinate. -/
structure Grid where
  rows : ℕ
  cols : ℕ
  cellType : ℤ → ℤ → CellType

/-- Write one cell's type (Python mutates the aliased `Cell` object). -/
def Grid.setCell (g : Grid) (c : ℤ × ℤ) (t : CellType) : Grid :=
  { g with cellType := fun a b => if a = c.1 ∧ b = c.2 then t else g.cellType a b }

/-- Grid.__init__ from utils.py: every cell on the outer ring is `BOUND`
(`not all((i, j, rows-1-i, cols-1-j))`), the rest `NORMAL`. -/
def initGrid (rows cols : ℕ) : Grid :=
  ⟨rows, cols, fun i j =>
    if i = 0 ∨ j = 0 ∨ i = (rows : ℤ) - 1 ∨ j = (cols : ℤ) - 1 then
      CellType.BOUND
    else CellType.NORMAL⟩

/-- All coordinates of the grid in construction (row-major) order, the order
in which `Grid` (a `list` subclass) iterates its cells. -/
def Grid.allCoords (g : Grid) : List (ℤ × ℤ) :=
  (List.range g.rows).flatMap fun i =>
    (List.range g.cols).map fun j => ((i : ℤ), (j : ℤ))

/-- `grid[Cell.Type.NORMAL]` from utils.py: all cells currently of type
NORMAL, in grid iteration order. -/
def Grid.normalCells (g : Grid) : List (ℤ × ℤ) :=
  g.allCoords.filter fun c => decide (g.cellType c.1 c.2 = CellType.NORMAL)

/-- `grid[Cell.Type.FRUIT]` from utils.py: all cells currently of type FRUIT,
in grid iteration order. -/
def Grid.fruitCells (g : Grid) : List (ℤ × ℤ) :=
  g.allCoords.filter fun c => decide (g.cellType c.1 c.2 = CellType.FRUIT)

/-- Game._insert_fruit from snake.py: pick a cell among those currently of
type NORMAL and set it to FRUIT.  `random.choice` is modelled by an oracle
index `k` reduced modulo the number of candidates; with no candidate the
Python call would raise, modelled as leaving the grid unchanged. -/
def Grid.insertFruit (g : Grid) (k : ℕ) : Grid :=
  let candidates := g.normalCells
  if candidates = [] then g
  else g.setCell (candidates.getD (k % candidates.length) (0, 0)) CellType.FRUIT

/-- Snake.Direction from agents.py with its Enum values 0..5. -/
inductive Direction where
  | NORTH
  | NORTH_EAST
  | NORTH_WEST
  | SOUTH
  | SOUTH_WEST
  | SOUTH_EAST
deriving DecidableEq, Repr

/-- Enum value of a direction (NORTH = 0, ..., SOUTH_EAST = 5). -/
def Direction.val : Direction → ℤ
  | .NORTH => 0
  | .NORTH_EAST => 1
  | .NORTH_WEST => 2
  | .SOUTH => 3
  | .SOUTH_WEST => 4
  | .SOUTH_EAST => 5

/-- Direction(action) for action in 0..5. -/
def Direction.ofFin : Fin 6 → Direction
  | 0 => .NORTH
  | 1 => .NORTH_EAST
  | 2 => .NORTH_WEST
  | 3 => .SOUTH
  | 4 => .SOUTH_WEST
  | 5 => .SOUTH_EAST

/-- The six keys of KeyboardListener.VALID_KEYS = ("w","e","q","s","a","d");
any other key never reaches the snake. -/
inductive Key where
  | w
  | e
  | q
  | s
  | a
  | d
deriving DecidableEq, Repr

/-- KEY_TO_DIRECTION = dict(zip(VALID_KEYS, Direction)): zips the key order
with the enum declaration order. -/
def keyToDirection : Key → Direction
  | .w => .NORTH
  | .e => .NORTH_EAST
  | .q => .NORTH_WEST
  | .s => .SOUTH
  | .a => .SOUTH_WEST
  | .d => .SOUTH_EAST

/-- Snake / Bot state from agents.py.  `previousScore` is Bot.__previous_score
(unused by the plain player snake). -/
structure Snake where
  currentDirection : Direction
  head : ℤ × ℤ
  previousHead : ℤ × ℤ
  snakeType : CellType
  score : ℤ
  body : List (ℤ × ℤ)
  lost : Bool
  previousScore : ℤ
deriving DecidableEq, Repr

/-- Snake.__init__ (and Bot.__init__, which additionally records
`__previous_score = score = 0`): head and previous head coincide, the head
cell's type is overwritten with the snake's own type, score 0, body holds the
single head cell, not lost. -/
def snakeInit (headPos : ℤ × ℤ) (d : Direction) (t : CellType) (g : Grid) :
    Snake × Grid :=
  (⟨d, headPos, headPos, t, 0, [headPos], false, 0⟩, g.setCell headPos t)

/-- Snake.is_opposite_direction: the current direction's value is
`direction_value - 3` or `direction_value + 3` (plain int arithmetic). -/
def Snake.isOppositeDirection (sn : Snake) (directionValue : ℤ) : Bool :=
  decide (sn.currentDirection.val = directionValue - 3 ∨
    sn.currentDirection.val = directionValue + 3)

/-- Snake.update_direction (key driven): look the key up in KEY_TO_DIRECTION
and adopt it unless it is opposite to the current direction. -/
def Snake.updateDirection (sn : Snake) (key : Key) : Snake :=
  let newDirection := keyToDirection key
  if sn.isOppositeDirection newDirection.val then sn
  else { sn with currentDirection := newDirection }

/-- Bot.update_direction (action driven): `Direction(action)` and the same
opposite-direction guard. -/
def Bot.updateDirection (sn : Snake) (action : Fin 6) : Snake :=
  let newDirection := Direction.ofFin action
  if sn.isOppositeDirection newDirection.val then sn
  else { sn with currentDirection := newDirection }

/-- Snake._head_position_change: `position_change[direction][head.y % 2]`
where each entry is the pair (value for even `y`, value for odd `y`) and each
delta is `(x_delta, y_delta)`.  Note the index is the parity of the head's
second coordinate `y`, i.e. of its COLUMN. -/
def headPositionChange (d : Direction) (y : ℤ) : ℤ × ℤ :=
  let pair : (ℤ × ℤ) × (ℤ × ℤ) :=
    match d with
    | .NORTH_EAST => ((0, 1), (-1, 1))
    | .NORTH_WEST => ((0, -1), (-1, -1))
    | .SOUTH_EAST => ((1, 1), (0, 1))
    | .SOUTH_WEST => ((1, -1), (0, -1))
    | .NORTH => ((-1, 0), (-1, 0))
    | .SOUTH => ((1, 0), (1, 0))
  if y % 2 = 0 then pair.1 else pair.2

/-- The candidate head coordinate computed at the top of Snake.move:
`game.grid[head.x + x_delta, head.y + y_delta]`. -/
def Snake.candidateHead (sn : Snake) : ℤ × ℤ :=
  let delta := headPositionChange sn.currentDirection sn.head.2
  (sn.head.1 + delta.1, sn.head.2 + delta.2)

/-- Snake.remove_body: set every cell the body deque holds to NORMAL, clear
the body, mark the snake lost. -/
def Snake.removeBody (sn : Snake) (g : Grid) : Snake × Grid :=
  ({ sn with body := [], lost := true },
   sn.body.foldl (fun g' c => g'.setCell c CellType.NORMAL) g)

/-- Snake.move from agents.py.  The deque shift
`for i in range(len(body)-1, 0, -1): body[i] = body[i-1]` turns
`[c0, c1, ..., c(n-1)]` into `[c0, c0, c1, ..., c(n-2)]`, with `tail` the old
last element.  The collision test is `new_head.cell_type.value in range(1, 4)`.
`k` is the fruit-respawn oracle passed through to `insertFruit`.  A dead
snake's empty body would make `body[-1]` raise in Python; that unreachable
case is modelled as a no-op. -/
def Snake.move (sn : Snake) (g : Grid) (k : ℕ) : Snake × Grid :=
  match sn.body with
  | [] => (sn, g)
  | c0 :: rest =>
    let newHead := sn.candidateHead
    let tail := (c0 :: rest).getLastD (0, 0)
    let shifted := c0 :: (c0 :: rest).dropLast
    let ct := g.cellType newHead.1 newHead.2
    if 1 ≤ ct.val ∧ ct.val < 4 then
      Snake.removeBody { sn with body := shifted ++ [tail] } g
    else if ct = CellType.FRUIT then
      let sn1 := { sn with score := sn.score + 10, body := shifted ++ [tail] }
      let g1 := g.insertFruit k
      ({ sn1 with previousHead := sn.head, head := newHead,
                  body := newHead :: sn1.body.tail },
       g1.setCell newHead sn.snakeType)
    else
      let g1 := g.setCell tail CellType.NORMAL
      ({ sn with previousHead := sn.head, head := newHead,
                 body := newHead :: shifted.tail },
       g1.setCell newHead sn.snakeType)

/-- The fruit-direction one-hot block of Bot.get_observation (agents.py lines
159-182): an 8-slot list, initially all zero, with at most one slot set by the
comparison chain on `(fruit.x, fruit.y)` versus `(head.x, head.y)`.  The
branch structure is copied exactly, including the redundant final
`elif fruit.y == head.y` tests. -/
def fruitPosition (fruit head : ℤ × ℤ) : List ℕ :=
  let zeros := List.replicate 8 0
  if head.1 < fruit.1 then
    if head.2 < fruit.2 then zeros.set 3 1
    else if fruit.2 < head.2 then zeros.set 5 1
    else if fruit.2 = head.2 then zeros.set 4 1
    else zeros
  else if fruit.1 < head.1 then
    if head.2 < fruit.2 then zeros.set 1 1
    else if fruit.2 < head.2 then zeros.set 7 1
    else if fruit.2 = head.2 then zeros.set 0 1
    else zeros
  else if fruit.1 = head.1 then
    if head.2 < fruit.2 then zeros.set 2 1
    else if fruit.2 < head.2 then zeros.set 6 1
    else zeros
  else zeros

/-- The square of Bot.__calculate_distance: the Python code returns
`((fruit.x - head.x)**2 + (fruit.y - head.y)**2)**0.5` and only ever compares
two such values, so the (monotone) square root is carried in the theorems
instead of the definition to keep it executable. -/
def calculateDistanceSq (fruit head : ℤ × ℤ) : ℤ :=
  (fruit.1 - head.1) ^ 2 + (fruit.2 - head.2) ^ 2

/-- The reward computation of Bot.get_observation (agents.py lines 184-195):
`fruit = grid[Cell.Type.FRUIT][0]`; if the score grew past the recorded
previous score the reward is 10 and the record is updated, otherwise the
reward is 2 when the head-to-fruit distance strictly shrank relative to the
previous head and -3 when it did not.  Returns the reward and the snake with
its (possibly updated) `previousScore`. -/
def Bot.getObservationReward (sn : Snake) (g : Grid) : ℤ × Snake :=
  let fruit := g.fruitCells.headD (0, 0)
  if sn.previousScore < sn.score then (10, { sn with previousScore := sn.score })
  else
    let currentDistanceSq := calculateDistanceSq fruit sn.head
    let previousDistanceSq := calculateDistanceSq fruit sn.previousHead
    (if currentDistanceSq < previousDistanceSq then 2 else -3, sn)

/-- A stored transition from train.py line 40:
`transition = (observation, action, reward, observation_, bot.lost)` — the
fifth element is the bot's `lost` flag of the step just taken. -/
structure Transition where
  state : List ℚ
  action : ℕ
  reward : ℚ
  nextState : List ℚ
  done : Bool
deriving DecidableEq, Repr

/-- Builds the tuple exactly as train.py stores it. -/
def storedTransition (observation : List ℚ) (action : ℕ) (reward : ℚ)
    (observation' : List ℚ) (lost : Bool) : Transition :=
  ⟨observation, action, reward, observation', lost⟩

/-- np.max over one row of q_next (n_actions = 6, so rows are nonempty; the
empty case, on which np.max would raise, returns 0). -/
def listMax : List ℚ → ℚ
  | [] => 0
  | h :: t => t.foldl max h

/-- One row of the q_target matrix in DQNetwork.train (network.py lines
100-109): start from the prediction for the transition's state and overwrite
the taken action's slot with
`reward + gamma * np.max(q_next_row) * done`, where `done` is the stored
fifth element (a Python bool, multiplying as 1/0). -/
def qTargetRow (predict : List ℚ → List ℚ) (gamma : ℚ) (t : Transition) :
    List ℚ :=
  (predict t.state).set t.action
    (t.reward + gamma * listMax (predict t.nextState) *
      (if t.done then 1 else 0))

/-- The whole submitted target matrix: one row per sampled transition. -/
def qTarget (predict : List ℚ → List ℚ) (gamma : ℚ)
    (batch : List Transition) : List (List ℚ) :=
  batch.map (qTargetRow predict gamma)

/-- The epsilon update at the end of DQNetwork.train (network.py lines
110-112): `epsilon - epsilon_delta if epsilon > epsilon_final else
epsilon_final`. -/
def epsilonStep (epsilonFinal epsilonDelta eps : ℚ) : ℚ :=
  if epsilonFinal < eps then eps - epsilonDelta else epsilonFinal

/-- Default epsilon decay step from DQNetwork.__init__. -/
def epsilonDeltaDefault : ℚ := 1 / 100000

/-- Default epsilon floor from DQNetwork.__init__. -/
def epsilonFinalDefault : ℚ := 1 / 100

/-- Default replay-memory capacity from DQNetwork.__init__. -/
def memorySizeDefault : ℕ := 1000000

/-- `deque(maxlen=cap).append`: keep the last `cap` elements of the extended
buffer (dropping from the front once the capacity is reached). -/
def dequeAppend {α : Type} (cap : ℕ) (buf : List α) (x : α) : List α :=
  (buf ++ [x]).drop (buf.length + 1 - cap)

/-- DQNetwork.store_transition: `self.memory.append(transition)` on the
bounded deque. -/
def storeTransition (cap : ℕ) (buf : List Transition) (t : Transition) :
    List Transition :=
  dequeAppend cap buf t

/-- From the spec's words (section 4.1 table, as quoted by the claim): the
movement delta the claim asserts, selected by the heading and the parity of
the head's ROW.  Used only to compare against the source's
`headPositionChange`. -/
def claimRowDeltaTable (d : Direction) (rowParity : ℤ) : ℤ × ℤ :=
  match d with
  | .NORTH => (-1, 0)
  | .SOUTH => (1, 0)
  | .NORTH_EAST => if rowParity = 0 then (-1, 0) else (-1, 1)
  | .NORTH_WEST => if rowParity = 0 then (-1, -1) else (-1, 0)
  | .SOUTH_EAST => if rowParity = 0 then (0, 1) else (1, 1)
  | .SOUTH_WEST => if rowParity = 0 then (0, -1) else (1, 0)

/-- The amended movement table: deltas selected by the heading and the parity
of the head's COLUMN, with the values the source actually uses.  Stated
independently of `headPositionChange` to be compared against it. -/
def amendedColDeltaTable (d : Direction) (colParity : ℤ) : ℤ × ℤ :=
  match d with
  | .NORTH => (-1, 0)
  | .SOUTH => (1, 0)
  | .NORTH_EAST => if colParity = 0 then (0, 1) else (-1, 1)
  | .NORTH_WEST => if colParity = 0 then (0, -1) else (-1, -1)
  | .SOUTH_EAST => if colParity = 0 then (1, 1) else (0, 1)
  | .SOUTH_WEST => if colParity = 0 then (1, -1) else (0, -1)

/-- From the spec's words: the fixed opposite pairs N-S, NE-SW, NW-SE. -/
def specOpposite : Direction → Direction
  | .NORTH => .SOUTH
  | .SOUTH => .NORTH
  | .NORTH_EAST => .SOUTH_WEST
  | .SOUTH_WEST => .NORTH_EAST
  | .NORTH_WEST => .SOUTH_EAST
  | .SOUTH_EAST => .NORTH_WEST

/-- From the claim's words for C2: the target row if the stored fifth element
were a 'continues' flag, i.e. if a terminal transition (lost = true)
contributed the reward alone and a non-terminal one retained the bootstrap
term. -/
def specContinuesTargetRow (predict : List ℚ → List ℚ) (gamma : ℚ)
    (t : Transition) : List ℚ :=
  (predict t.state).set t.action
    (t.reward + gamma * listMax (predict t.nextState) *
      (if t.done then 0 else 1))

/-- Reading a cell just written. -/
theorem Grid.setCell_same (g : Grid) (c : ℤ × ℤ) (t : CellType) :
    (g.setCell c t).cellType c.1 c.2 = t := by
  simp [Grid.setCell]

/-- Reading a different cell after a write. -/
theorem Grid.setCell_other (g : Grid) (c c' : ℤ × ℤ) (t : CellType)
    (h : c' ≠ c) : (g.setCell c t).cellType c'.1 c'.2 = g.cellType c'.1 c'.2 := by
  have : ¬(c'.1 = c.1 ∧ c'.2 = c.2) := by
    intro hc
    exact h (Prod.ext hc.1 hc.2)
  simp [Grid.setCell, this]

/-- After folding NORMAL writes over a list of cells, every cell of the list
(and every cell already NORMAL) reads NORMAL. -/
theorem foldl_setCell_normal (l : List (ℤ × ℤ)) :
    ∀ (g : Grid) (c : ℤ × ℤ),
      c ∈ l ∨ g.cellType c.1 c.2 = CellType.NORMAL →
      (l.foldl (fun g' x => g'.setCell x CellType.NORMAL) g).cellType c.1 c.2 =
        CellType.NORMAL := by
  induction l with
  | nil =>
    intro g c h
    rcases h with h | h
    · cases h
    · simpa using h
  | cons a t ih =>
    intro g c h
    have hstep : (g.setCell a CellType.NORMAL).cellType c.1 c.2 =
        CellType.NORMAL ∨ c ∈ t := by
      rcases h with h | h
      · rcases List.mem_cons.mp h with h | h
        · refine Or.inl ?_
          rw [h]
          exact Grid.setCell_same g a CellType.NORMAL
        · exact Or.inr h
      · by_cases hc : c = a
        · refine Or.inl ?_
          rw [hc]
          exact Grid.setCell_same g a CellType.NORMAL
        · exact Or.inl ((Grid.setCell_other g a c CellType.NORMAL hc).trans h)
    rcases hstep with h1 | h1
    · exact ih (g.setCell a CellType.NORMAL) c (Or.inr h1)
    · exact ih (g.setCell a CellType.NORMAL) c (Or.inl h1)

/-- A nonempty list is its dropLast plus its last element. -/
theorem dropLast_append_getLastD :
    ∀ (l : List (ℤ × ℤ)), l ≠ [] → ∀ d : ℤ × ℤ,
      l.dropLast ++ [l.getLastD d] = l
  | [], h, _ => absurd rfl h
  | [_], _, _ => rfl
  | a :: b :: t, _, _ => by
    have ih := dropLast_append_getLastD (b :: t) (List.cons_ne_nil b t) a
    simp only [List.dropLast_cons₂, List.getLastD_cons, List.cons_append] at ih ⊢
    rw [ih]

/-- Shared collision lemma: when the candidate head cell's type value lies in
`range(1, 4)`, `move` takes the `remove_body` branch — the snake dies, its
body is cleared, its head is untouched, and every cell its body held reads
NORMAL afterwards. -/
theorem move_collision (sn : Snake) (g : Grid) (k : ℕ)
    (hb : sn.body ≠ [])
    (hc : 1 ≤ (g.cellType sn.candidateHead.1 sn.candidateHead.2).val ∧
          (g.cellType sn.candidateHead.1 sn.candidateHead.2).val < 4) :
    (sn.move g k).1.lost = true ∧ (sn.move g k).1.body = [] ∧
    (sn.move g k).1.head = sn.head ∧
    ∀ c ∈ sn.body, (sn.move g k).2.cellType c.1 c.2 = CellType.NORMAL := by
  rcases hbody : sn.body with _ | ⟨c0, rest⟩
  · cases hb hbody
  · have hlist : (c0 :: (c0 :: rest).dropLast) ++ [(c0 :: rest).getLastD (0, 0)]
        = c0 :: c0 :: rest := by
      have := dropLast_append_getLastD (c0 :: rest)
        (List.cons_ne_nil c0 rest) (0, 0)
      simpa using this
    have hmove : sn.move g k = Snake.removeBody
        { sn with body :=
            (c0 :: (c0 :: rest).dropLast) ++ [(c0 :: rest).getLastD (0, 0)] }
        g := by
      simp only [Snake.move, hbody]
      rw [if_pos hc]
    rw [hmove]
    simp only [Snake.removeBody]
    refine ⟨trivial, trivial, trivial, ?_⟩
    intro c hmem
    apply foldl_setCell_normal
    refine Or.inl ?_
    have hmem' : c ∈ c0 :: c0 :: rest := by
      apply List.mem_cons_of_mem c0
      simpa [hbody] using hmem
    rw [hlist]
    exact hmem'

/-- `move` never revives a dead snake: `lost` stays true through any move. -/
theorem move_lost_preserved (sn : Snake) (g : Grid) (k : ℕ)
    (h : sn.lost = true) : (sn.move g k).1.lost = true := by
  rcases hbody : sn.body with _ | ⟨c0, rest⟩
  · simpa [Snake.move, hbody] using h
  · simp only [Snake.move, hbody]
    split
    · simp [Snake.removeBody]
    · split
      · simpa using h
      · simpa using h

/-- Claim C5: for every live snake whose candidate head cell has type
Boundary, PlayerBody or BotBody, `move()` resets every cell owned by the
snake's body to Empty, clears the body and marks the snake Dead
(`lost = true`), with no head update; and a Dead snake never transitions back
to Alive (no move ever clears `lost`). -/
theorem claim5_collision_kills (sn : Snake) (g : Grid) (k : ℕ)
    (halive : sn.lost = false) (hb : sn.body ≠ [])
    (hc : g.cellType sn.candidateHead.1 sn.candidateHead.2 = CellType.BOUND ∨
      g.cellType sn.candidateHead.1 sn.candidateHead.2 = CellType.SNAKE ∨
      g.cellType sn.candidateHead.1 sn.candidateHead.2 = CellType.BOT) :
    (sn.move g k).1.lost = true ∧ (sn.move g k).1.body = [] ∧
    (sn.move g k).1.head = sn.head ∧
    (∀ c ∈ sn.body, (sn.move g k).2.cellType c.1 c.2 = CellType.NORMAL) ∧
    (∀ (sn' : Snake) (g' : Grid) (k' : ℕ), sn'.lost = true →
      (sn'.move g' k').1.lost = true) := by
  have hval : 1 ≤ (g.cellType sn.candidateHead.1 sn.candidateHead.2).val ∧
      (g.cellType sn.candidateHead.1 sn.candidateHead.2).val < 4 := by
    rcases hc with h | h | h <;> rw [h] <;> exact ⟨by decide, by decide⟩
  have h := move_collision sn g k hb hval
  exact ⟨h.1, h.2.1, h.2.2.1, h.2.2.2,
    fun sn' g' k' hl => move_lost_preserved sn' g' k' hl⟩

/-- Concrete scenario for the C5 witness: a fresh single-cell snake at (1,1)
on a 4x4 grid, heading NORTH into the boundary ring. -/
def c5Start : Snake × Grid :=
  snakeInit (1, 1) Direction.NORTH CellType.SNAKE (initGrid 4 4)

/-- Witness for claim C5 at the concrete scenario `c5Start`: the candidate
head cell is BOUND, and the move kills the snake and clears its body. -/
theorem claim5_collision_kills_witness :
    c5Start.1.lost = false ∧ c5Start.1.body ≠ [] ∧
    c5Start.2.cellType c5Start.1.candidateHead.1 c5Start.1.candidateHead.2 =
      CellType.BOUND ∧
    (c5Start.1.move c5Start.2 0).1.lost = true ∧
    (c5Start.1.move c5Start.2 0).1.body = [] := by
  have h := claim5_collision_kills c5Start.1 c5Start.2 0 rfl (by decide)
    (Or.inl (by decide))
  exact ⟨rfl, by decide, by decide, h.1, h.2.1⟩

/-- Claim C10: a live snake of body length at least 2 whose candidate head
coordinate is the cell its own tail currently occupies collides and dies
(the tail cell's type is inspected before it would be vacated), with its body
cleared and all owned cells reset to Empty. -/
theorem claim10_tail_collision (sn : Snake) (g : Grid) (k : ℕ)
    (halive : sn.lost = false) (h2 : 2 ≤ sn.body.length)
    (htail : sn.candidateHead = sn.body.getLastD (0, 0))
    (hty : g.cellType sn.candidateHead.1 sn.candidateHead.2 = sn.snakeType)
    (hst : sn.snakeType = CellType.SNAKE ∨ sn.snakeType = CellType.BOT) :
    (sn.move g k).1.lost = true ∧ (sn.move g k).1.body = [] ∧
    (sn.move g k).1.head = sn.head ∧
    ∀ c ∈ sn.body, (sn.move g k).2.cellType c.1 c.2 = CellType.NORMAL := by
  have hb : sn.body ≠ [] := by
    intro h
    rw [h] at h2
    simp at h2
  have hval : 1 ≤ (g.cellType sn.candidateHead.1 sn.candidateHead.2).val ∧
      (g.cellType sn.candidateHead.1 sn.candidateHead.2).val < 4 := by
    rcases hst with h | h <;> rw [hty, h] <;> exact ⟨by decide, by decide⟩
  exact move_collision sn g k hb hval

/-- Concrete snake for the C10 witness: length 2, heading SOUTH_EAST from
(1,1), whose candidate head (1,2) is its own tail cell. -/
def c10Snake : Snake :=
  ⟨Direction.SOUTH_EAST, (1, 1), (1, 1), CellType.SNAKE, 0,
   [(1, 1), (1, 2)], false, 0⟩

/-- Concrete grid for the C10 witness: the snake's two body cells carry its
own type tag. -/
def c10Grid : Grid :=
  ((initGrid 4 4).setCell (1, 1) CellType.SNAKE).setCell (1, 2) CellType.SNAKE

/-- Witness for claim C10 at the concrete scenario: the candidate head equals
the tail cell and the move kills the snake. -/
theorem claim10_tail_collision_witness :
    2 ≤ c10Snake.body.length ∧
    c10Snake.candidateHead = c10Snake.body.getLastD (0, 0) ∧
    c10Grid.cellType c10Snake.candidateHead.1 c10Snake.candidateHead.2 =
      c10Snake.snakeType ∧
    (c10Snake.move c10Grid 0).1.lost = true ∧
    (c10Snake.move c10Grid 0).1.body = [] := by
  have h := claim10_tail_collision c10Snake c10Grid 0 rfl (by decide)
    (by decide) (by decide) (Or.inl rfl)
  exact ⟨by decide, by decide, by decide, h.1, h.2.1⟩

/-- A member of `normalCells` really has type NORMAL in the grid. -/
theorem mem_normalCells_type (g : Grid) (c : ℤ × ℤ)
    (h : c ∈ g.normalCells) : g.cellType c.1 c.2 = CellType.NORMAL :=
  of_decide_eq_true (List.mem_filter.mp h).2

/-- The modulo-indexed default lookup of a nonempty list is a member. -/
theorem getD_mod_mem {α : Type} (l : List α) (d : α) (n : ℕ) (h : l ≠ []) :
    l.getD (n % l.length) d ∈ l := by
  have hlen : 0 < l.length := List.length_pos.mpr h
  have hlt : n % l.length < l.length := Nat.mod_lt _ hlen
  rw [List.getD_eq_getElem l d hlt]
  exact List.getElem_mem hlt

/-- Claim C6: for every live snake whose candidate head cell has type Fruit,
`move()` keeps every existing body segment (the new body is the new head
prepended to the whole old body, so length grows by exactly one), sets the
new head cell to the snake's own type tag, adds exactly 10 to the score, and
respawns the fruit on a cell that was of type Empty (NORMAL) at the moment of
the respawn. -/
theorem claim6_fruit_growth (sn : Snake) (g : Grid) (k : ℕ)
    (halive : sn.lost = false) (hb : sn.body ≠ [])
    (hf : g.cellType sn.candidateHead.1 sn.candidateHead.2 =
      CellType.FRUIT) :
    (sn.move g k).1.body = sn.candidateHead :: sn.body ∧
    (sn.move g k).1.score = sn.score + 10 ∧
    (sn.move g k).1.head = sn.candidateHead ∧
    (sn.move g k).1.lost = sn.lost ∧
    (sn.move g k).2.cellType sn.candidateHead.1 sn.candidateHead.2 =
      sn.snakeType ∧
    (g.normalCells ≠ [] →
      g.cellType (g.normalCells.getD (k % g.normalCells.length) (0, 0)).1
          (g.normalCells.getD (k % g.normalCells.length) (0, 0)).2 =
        CellType.NORMAL ∧
      (sn.move g k).2.cellType
          (g.normalCells.getD (k % g.normalCells.length) (0, 0)).1
          (g.normalCells.getD (k % g.normalCells.length) (0, 0)).2 =
        CellType.FRUIT) := by
  rcases hbody : sn.body with _ | ⟨c0, rest⟩
  · cases hb hbody
  · have htl : (c0 :: rest).dropLast ++ [(c0 :: rest).getLastD (0, 0)]
        = c0 :: rest :=
      dropLast_append_getLastD (c0 :: rest) (List.cons_ne_nil c0 rest) (0, 0)
    have hval : ¬(1 ≤ (g.cellType sn.candidateHead.1
        sn.candidateHead.2).val ∧
        (g.cellType sn.candidateHead.1 sn.candidateHead.2).val < 4) := by
      rw [hf]
      decide
    have hmove : sn.move g k =
        ({ sn with score := sn.score + 10,
                   previousHead := sn.head, head := sn.candidateHead,
                   body := sn.candidateHead ::
                     ((c0 :: rest).dropLast ++
                       [(c0 :: rest).getLastD (0, 0)]) },
         (g.insertFruit k).setCell sn.candidateHead sn.snakeType) := by
      simp only [Snake.move, hbody]
      rw [if_neg hval, if_pos hf]
      rfl
    rw [hmove, htl]
    refine ⟨rfl, rfl, rfl, rfl, Grid.setCell_same _ _ _, ?_⟩
    intro hnc
    have hcmem : g.normalCells.getD (k % g.normalCells.length) (0, 0) ∈
        g.normalCells := getD_mod_mem _ _ _ hnc
    have hcnorm := mem_normalCells_type g _ hcmem
    refine ⟨hcnorm, ?_⟩
    have hne : g.normalCells.getD (k % g.normalCells.length) (0, 0) ≠
        sn.candidateHead := by
      intro he
      rw [he, hf] at hcnorm
      cases hcnorm
    rw [Grid.setCell_other _ _ _ _ hne]
    simp only [Grid.insertFruit]
    rw [if_neg hnc]
    exact Grid.setCell_same _ _ _

/-- Concrete snake for the C6 witness: a fresh single-cell snake at (2,2)
heading NORTH. -/
def c6Snake : Snake :=
  ⟨Direction.NORTH, (2, 2), (2, 2), CellType.SNAKE, 0, [(2, 2)], false, 0⟩

/-- Concrete grid for the C6 witness: a fruit sits on the candidate head cell
(1,2). -/
def c6Grid : Grid :=
  ((initGrid 5 5).setCell (2, 2) CellType.SNAKE).setCell (1, 2) CellType.FRUIT

/-- Witness for claim C6 at the concrete scenario: eating the fruit prepends
the new head, keeps the old body and adds 10 to the score. -/
theorem claim6_fruit_growth_witness :
    c6Grid.cellType c6Snake.candidateHead.1 c6Snake.candidateHead.2 =
      CellType.FRUIT ∧
    (c6Snake.move c6Grid 0).1.body = c6Snake.candidateHead :: c6Snake.body ∧
    (c6Snake.move c6Grid 0).1.score = c6Snake.score + 10 := by
  have h := claim6_fruit_growth c6Snake c6Grid 0 rfl (by decide) (by decide)
  exact ⟨by decide, h.1, h.2.1⟩

/-- The game's opening position for the first (human) player on the default
11x29 grid: `Snake(self.grid[rows - 2, 1], Snake.Direction.NORTH_EAST)`. -/
def c1Start : Snake × Grid :=
  snakeInit (9, 1) Direction.NORTH_EAST CellType.SNAKE (initGrid 11 29)

/-- Counterexample to claim C1: the delta is NOT selected by the parity of
the head's row via the claimed table — from head (2,1) (even row) heading NE
the code's candidate is (1,2), not (2,1) + table(NE, even row) = (1,1) — and
in the 11x29 opening scenario one normal move heading NE ends with head
(8,2), not (rows-3, 1) = (8,1). -/
theorem claim1_counterexample :
    (Snake.candidateHead
        ⟨Direction.NORTH_EAST, (2, 1), (2, 1), CellType.SNAKE, 0,
         [(2, 1)], false, 0⟩ ≠
      (2 + (claimRowDeltaTable Direction.NORTH_EAST ((2 : ℤ) % 2)).1,
       1 + (claimRowDeltaTable Direction.NORTH_EAST ((2 : ℤ) % 2)).2)) ∧
    (c1Start.1.move c1Start.2 0).1.head ≠ (8, 1) := by
  refine ⟨by decide, by decide⟩

/-- Claim C1 as amended: the candidate head equals the current head plus the
delta selected by the heading and the parity of the current head's COLUMN
(N = (-1,0) and S = (+1,0) for both parities; even column NE = (0,+1),
NW = (0,-1), SE = (+1,+1), SW = (+1,-1); odd column NE = (-1,+1),
NW = (-1,-1), SE = (0,+1), SW = (0,-1)); and in the 11x29 opening scenario
the human snake heading NE ends one normal move with body length still 1 and
head coordinate (8, 2). -/
theorem claim1_amended :
    (∀ sn : Snake, sn.candidateHead =
      (sn.head.1 +
        (amendedColDeltaTable sn.currentDirection (sn.head.2 % 2)).1,
       sn.head.2 +
        (amendedColDeltaTable sn.currentDirection (sn.head.2 % 2)).2)) ∧
    (c1Start.1.move c1Start.2 0).1.body.length = 1 ∧
    (c1Start.1.move c1Start.2 0).1.head = (8, 2) := by
  refine ⟨?_, by decide, by decide⟩
  intro sn
  rcases Int.emod_two_eq sn.head.2 with h | h <;>
    cases hd : sn.currentDirection <;>
      simp [Snake.candidateHead, headPositionChange, amendedColDeltaTable,
        h, hd]

/-- Claim C8: a requested direction that is the exact opposite of the current
heading (under the fixed pairs N-S, NE-SW, NW-SE) leaves the heading
unchanged, and any non-opposite request updates it — both for the human
snake's key-driven request and for the bot's action-driven request. -/
theorem claim8_opposite_guard :
    ∀ (sn : Snake) (key : Key) (action : Fin 6),
      ((sn.updateDirection key).currentDirection =
        if keyToDirection key = specOpposite sn.currentDirection then
          sn.currentDirection
        else keyToDirection key) ∧
      ((Bot.updateDirection sn action).currentDirection =
        if Direction.ofFin action = specOpposite sn.currentDirection then
          sn.currentDirection
        else Direction.ofFin action) := by
  intro sn key action
  rcases sn with ⟨dir, hd, ph, st, sc, bd, lo, ps⟩
  refine ⟨?_, ?_⟩
  · cases dir <;> cases key <;> rfl
  · fin_cases action <;> cases dir <;> rfl

/-- Comparing the square roots of two squared distances is comparing the
squared distances themselves (Bot.__calculate_distance applies the monotone
`** 0.5` before the comparison). -/
theorem sqrt_distSq_lt_iff (f a b : ℤ × ℤ) :
    Real.sqrt ((calculateDistanceSq f a : ℝ)) <
      Real.sqrt ((calculateDistanceSq f b : ℝ)) ↔
    calculateDistanceSq f a < calculateDistanceSq f b := by
  have ha : (0 : ℝ) ≤ ((calculateDistanceSq f a : ℤ) : ℝ) := by
    have : (0 : ℤ) ≤ calculateDistanceSq f a := by
      unfold calculateDistanceSq
      positivity
    exact_mod_cast this
  rw [Real.sqrt_lt_sqrt_iff ha]
  exact_mod_cast Iff.rfl

/-- Claim C7: the bot's reward is +10 (with the score baseline updated to the
new score) when the score strictly increased past the recorded baseline;
otherwise it is +2 when the Euclidean distance
`sqrt((fruit.row - head.row)^2 + (fruit.col - head.col)^2)` from the current
head to the fruit is strictly smaller than from the previous head, and -3
otherwise; the baseline is unchanged in the non-scoring case. -/
theorem claim7_reward (sn : Snake) (g : Grid) :
    (Bot.getObservationReward sn g).1 =
      (if sn.previousScore < sn.score then 10
       else if
          Real.sqrt
            ((calculateDistanceSq (g.fruitCells.headD (0, 0)) sn.head : ℝ)) <
          Real.sqrt
            ((calculateDistanceSq (g.fruitCells.headD (0, 0))
              sn.previousHead : ℝ))
        then 2 else -3) ∧
    (Bot.getObservationReward sn g).2.previousScore =
      (if sn.previousScore < sn.score then sn.score
       else sn.previousScore) := by
  by_cases hs : sn.previousScore < sn.score
  · simp [Bot.getObservationReward, hs]
  · rw [if_neg hs, if_neg hs]
    constructor
    · by_cases hlt : calculateDistanceSq (g.fruitCells.headD (0, 0)) sn.head <
          calculateDistanceSq (g.fruitCells.headD (0, 0)) sn.previousHead
      · rw [if_pos ((sqrt_distSq_lt_iff _ _ _).mpr hlt)]
        simp only [Bot.getObservationReward, hs, if_false, ite_false]
        rw [if_pos hlt]
      · rw [if_neg (fun hc => hlt ((sqrt_distSq_lt_iff _ _ _).mp hc))]
        simp only [Bot.getObservationReward, hs, if_false, ite_false]
        rw [if_neg hlt]
    · simp [Bot.getObservationReward, hs]

/-- The fruit one-hot block is all zeros exactly when the fruit's coordinates
equal the head's: the comparison chain is exhaustive for every other delta
combination. -/
theorem fruitPosition_eq_replicate_iff (f h : ℤ × ℤ) :
    fruitPosition f h = List.replicate 8 0 ↔ f = h := by
  constructor
  · intro heq
    rcases lt_trichotomy h.1 f.1 with h1 | h1 | h1
    · rcases lt_trichotomy h.2 f.2 with h2 | h2 | h2
      · have hred : fruitPosition f h = (List.replicate 8 0).set 3 1 := by
          simp [fruitPosition, h1, h2]
        rw [hred] at heq
        exact absurd heq (by decide)
      · have hred : fruitPosition f h = (List.replicate 8 0).set 4 1 := by
          simp [fruitPosition, h1, h2]
        rw [hred] at heq
        exact absurd heq (by decide)
      · have hred : fruitPosition f h = (List.replicate 8 0).set 5 1 := by
          simp [fruitPosition, h1, lt_asymm h2, h2, h2.ne']
        rw [hred] at heq
        exact absurd heq (by decide)
    · rcases lt_trichotomy h.2 f.2 with h2 | h2 | h2
      · have hred : fruitPosition f h = (List.replicate 8 0).set 2 1 := by
          simp [fruitPosition, h1, h2]
        rw [hred] at heq
        exact absurd heq (by decide)
      · exact Prod.ext h1.symm h2.symm
      · have hred : fruitPosition f h = (List.replicate 8 0).set 6 1 := by
          simp [fruitPosition, h1, lt_asymm h2, h2, h2.ne']
        rw [hred] at heq
        exact absurd heq (by decide)
    · rcases lt_trichotomy h.2 f.2 with h2 | h2 | h2
      · have hred : fruitPosition f h = (List.replicate 8 0).set 1 1 := by
          simp [fruitPosition, lt_asymm h1, h1, h1.ne, h2]
        rw [hred] at heq
        exact absurd heq (by decide)
      · have hred : fruitPosition f h = (List.replicate 8 0).set 0 1 := by
          simp [fruitPosition, lt_asymm h1, h1, h1.ne, h2]
        rw [hred] at heq
        exact absurd heq (by decide)
      · have hred : fruitPosition f h = (List.replicate 8 0).set 7 1 := by
          simp [fruitPosition, lt_asymm h1, h1, h1.ne, lt_asymm h2, h2, h2.ne']
        rw [hred] at heq
        exact absurd heq (by decide)
  · intro heq
    rw [heq]
    simp [fruitPosition]

/-- Counterexample to claim C4: there is NO delta combination with the fruit
distinct from the head for which the 8-way one-hot encoding leaves all 8
slots at 0 — the branch chain is exhaustive whenever fruit and head differ,
so the claimed existential is false. -/
theorem claim4_counterexample :
    ¬ ∃ fruit head : ℤ × ℤ, fruit ≠ head ∧
      fruitPosition fruit head = List.replicate 8 0 := by
  rintro ⟨f, h, hne, heq⟩
  exact hne ((fruitPosition_eq_replicate_iff f h).mp heq)

/-- Claim C4 as amended: the 8-way one-hot fruit-direction encoding leaves
all 8 slots at 0 exactly when the fruit's coordinates coincide with the
head's (delta (0,0)); for every distinct fruit position some slot is set. -/
theorem claim4_amended (fruit head : ℤ × ℤ) :
    fruitPosition fruit head = List.replicate 8 0 ↔ fruit = head :=
  fruitPosition_eq_replicate_iff fruit head

/-- Counterexample to claim C2: the stored fifth element is `bot.lost`, a
"done" flag, and the target multiplies the bootstrap term by it directly —
so on a terminal transition (lost = true, predicted next-state values [5],
gamma = 1, reward 0) the code's target row is [5], not the reward-alone [0]
the 'continues' reading demands. -/
theorem claim2_counterexample :
    qTargetRow (fun _ => [5]) 1 (storedTransition [] 0 0 [] true) = [5] ∧
    specContinuesTargetRow (fun _ => [5]) 1
      (storedTransition [] 0 0 [] true) = [0] ∧
    qTargetRow (fun _ => [5]) 1 (storedTransition [] 0 0 [] true) ≠
      specContinuesTargetRow (fun _ => [5]) 1
        (storedTransition [] 0 0 [] true) := by
  refine ⟨?_, ?_, ?_⟩ <;>
    norm_num [qTargetRow, specContinuesTargetRow, storedTransition, listMax]

/-- Claim C2 as amended: for every sampled transition the submitted target
row equals the approximator's current prediction in every slot except the
taken action's, which equals
`reward + gamma * max_a(Q_next[a]) * done_flag` where the stored fifth
element is the entity's `lost` (done) flag — a terminal transition retains
the bootstrap term and a non-terminal one contributes the reward alone. -/
theorem claim2_amended (predict : List ℚ → List ℚ) (gamma : ℚ)
    (obs : List ℚ) (a : ℕ) (r : ℚ) (obs' : List ℚ) (lost : Bool)
    (ha : a < (predict obs).length) :
    (∀ i, i ≠ a →
      (qTargetRow predict gamma (storedTransition obs a r obs' lost))[i]? =
        (predict obs)[i]?) ∧
    (qTargetRow predict gamma (storedTransition obs a r obs' lost))[a]? =
      some (r + gamma * listMax (predict obs') *
        (if lost then 1 else 0)) := by
  constructor
  · intro i hi
    simp only [qTargetRow, storedTransition]
    exact List.getElem?_set_ne (fun he => hi he.symm)
  · simp only [qTargetRow, storedTransition]
    exact List.getElem?_set_self ha

/-- Witness for claim C2 (amended) at a concrete transition: prediction
[1, 2], action slot 1, reward 3, terminal flag true, gamma 1 gives target
slot 3 + 1 * 2 * 1 = 5 and leaves slot 0 at its predicted value 1. -/
theorem claim2_amended_witness :
    1 < ((fun _ : List ℚ => [(1 : ℚ), 2]) []).length ∧
    (qTargetRow (fun _ => [(1 : ℚ), 2]) 1
      (storedTransition [] 1 3 [] true))[1]? = some 5 ∧
    (qTargetRow (fun _ => [(1 : ℚ), 2]) 1
      (storedTransition [] 1 3 [] true))[0]? = some 1 := by
  have h := claim2_amended (fun _ => [(1 : ℚ), 2]) 1 [] 1 3 [] true
    (by norm_num)
  refine ⟨by norm_num, ?_, ?_⟩
  · have h2 := h.2
    norm_num [listMax] at h2
    exact h2
  · have h1 := h.1 0 (by norm_num)
    simpa using h1

/-- Counterexample to claim C3: with the default floor 0.01 and step 1e-5,
starting one update above 0.010005 the epsilon update first drops BELOW the
floor (to 0.009995) and the next update jumps back UP to the floor — so
epsilon is neither monotonically non-increasing nor bounded below by
epsilon_final for every start value. -/
theorem claim3_counterexample :
    epsilonStep epsilonFinalDefault epsilonDeltaDefault
        (10005 / 1000000) < epsilonFinalDefault ∧
    epsilonStep epsilonFinalDefault epsilonDeltaDefault
        (epsilonStep epsilonFinalDefault epsilonDeltaDefault
          (10005 / 1000000)) >
      epsilonStep epsilonFinalDefault epsilonDeltaDefault
        (10005 / 1000000) := by
  norm_num [epsilonStep, epsilonFinalDefault, epsilonDeltaDefault]

/-- Every iterate of the epsilon update that starts a whole number of decay
steps at or above the floor stays a whole number of decay steps at or above
it. -/
theorem epsIter_invariant (f d e0 : ℚ) (hd : 0 < d) (k : ℕ)
    (hk : e0 = f + k * d) :
    ∀ n : ℕ, ∃ m : ℕ, (epsilonStep f d)^[n] e0 = f + m * d := by
  intro n
  induction n with
  | zero => exact ⟨k, by simpa using hk⟩
  | succ n ih =>
    obtain ⟨m, hm⟩ := ih
    rw [Function.iterate_succ_apply', hm]
    unfold epsilonStep
    by_cases hcase : f < f + (m : ℚ) * d
    · rw [if_pos hcase]
      have hm0 : m ≠ 0 := by
        rintro rfl
        simp at hcase
      have hm1 : 1 ≤ m := Nat.one_le_iff_ne_zero.mpr hm0
      refine ⟨m - 1, ?_⟩
      have hcast : ((m - 1 : ℕ) : ℚ) = (m : ℚ) - 1 := by
        push_cast [hm1]
        ring
      rw [hcast]
      ring
    · rw [if_neg hcase]
      exact ⟨0, by simp⟩

/-- Claim C3 as amended: provided the starting epsilon sits a whole number of
decay steps above the floor (as with the training defaults 1.0, floor 0.01,
step 1e-5, where (1.0 - 0.01) / 1e-5 = 99000 exactly), epsilon never goes
below the floor, is monotonically non-increasing across successive updates,
decreases by exactly epsilon_delta while strictly above the floor, and stays
at the floor once it reaches it.  (Starting at a value not of this form, one
update can overshoot below the floor and the next jumps back up, as the
counterexample shows.) -/
theorem claim3_amended (f d e0 : ℚ) (hd : 0 < d) (k : ℕ)
    (hk : e0 = f + k * d) (n : ℕ) :
    f ≤ (epsilonStep f d)^[n] e0 ∧
    (epsilonStep f d)^[n + 1] e0 ≤ (epsilonStep f d)^[n] e0 ∧
    (f < (epsilonStep f d)^[n] e0 →
      (epsilonStep f d)^[n + 1] e0 = (epsilonStep f d)^[n] e0 - d) ∧
    ((epsilonStep f d)^[n] e0 = f →
      (epsilonStep f d)^[n + 1] e0 = f) := by
  obtain ⟨m, hm⟩ := epsIter_invariant f d e0 hd k hk n
  have hmd : 0 ≤ (m : ℚ) * d := mul_nonneg (Nat.cast_nonneg m) hd.le
  have hfloor : f ≤ (epsilonStep f d)^[n] e0 := by
    rw [hm]
    linarith
  have hstep : ∀ e : ℚ, epsilonStep f d e = if f < e then e - d else f :=
    fun e => rfl
  refine ⟨hfloor, ?_, ?_, ?_⟩
  · rw [Function.iterate_succ_apply', hstep]
    by_cases hc : f < (epsilonStep f d)^[n] e0
    · rw [if_pos hc]
      linarith
    · rw [if_neg hc]
      exact hfloor
  · intro hlt
    rw [Function.iterate_succ_apply', hstep, if_pos hlt]
  · intro hfeq
    rw [Function.iterate_succ_apply', hstep, hfeq, if_neg (lt_irrefl f)]

/-- Witness for claim C3 (amended) with floor 1, step 1 and start 3 = 1 + 2*1:
the first update keeps epsilon at or above the floor and does not increase
it. -/
theorem claim3_amended_witness :
    (0 : ℚ) < 1 ∧ (3 : ℚ) = 1 + (2 : ℕ) * 1 ∧
    (1 : ℚ) ≤ (epsilonStep 1 1)^[0] 3 ∧
    (epsilonStep 1 1)^[0 + 1] 3 ≤ (epsilonStep 1 1)^[0] 3 := by
  have h := claim3_amended 1 1 3 (by norm_num) 2 (by norm_num) 0
  exact ⟨by norm_num, by norm_num, h.1, h.2.1⟩

/-- The deque append keeps the buffer at `min (previous length + 1) cap`. -/
theorem dequeAppend_length {α : Type} (cap : ℕ) (buf : List α) (x : α) :
    (dequeAppend cap buf x).length = min (buf.length + 1) cap := by
  simp only [dequeAppend, List.length_drop, List.length_append,
    List.length_cons, List.length_nil]
  omega

/-- Folding any store sequence over a buffer within capacity keeps it within
capacity. -/
theorem foldl_dequeAppend_length (cap : ℕ) :
    ∀ (ts buf : List Transition), buf.length ≤ cap →
      (ts.foldl (dequeAppend cap) buf).length ≤ cap := by
  intro ts
  induction ts with
  | nil =>
    intro buf hb
    simpa using hb
  | cons t rest ih =>
    intro buf hb
    simp only [List.foldl_cons]
    apply ih
    rw [dequeAppend_length]
    omega

/-- Claim C9: over any sequence of stores the replay buffer never exceeds its
capacity, a single store on an in-capacity buffer stays in capacity, and a
store on an exactly-full buffer evicts exactly the oldest element: the result
is the old buffer minus its first element, with the new transition appended
at the back (FIFO order retained). -/
theorem claim9_replay_capacity (cap : ℕ) (hc : 0 < cap) :
    (∀ ts : List Transition, (ts.foldl (dequeAppend cap) []).length ≤ cap) ∧
    (∀ (buf : List Transition) (t : Transition), buf.length ≤ cap →
      (dequeAppend cap buf t).length ≤ cap) ∧
    (∀ (buf : List Transition) (t : Transition), buf.length = cap →
      dequeAppend cap buf t = buf.tail ++ [t]) := by
  refine ⟨?_, ?_, ?_⟩
  · intro ts
    exact foldl_dequeAppend_length cap ts [] (by simp)
  · intro buf t hb
    rw [dequeAppend_length]
    omega
  · intro buf t hb
    unfold dequeAppend
    have hidx : buf.length + 1 - cap = 1 := by omega
    rw [hidx]
    have hlen1 : 1 ≤ buf.length := by omega
    rw [List.drop_append_of_le_length hlen1, List.drop_one]

/-- Witness for claim C9 at capacity 2: storing a third transition into a
full two-element buffer drops the oldest and appends the new one. -/
theorem claim9_replay_capacity_witness :
    (0 < 2) ∧
    ([(⟨[], 0, 0, [], false⟩ : Transition),
      ⟨[], 0, 0, [], true⟩].length = 2) ∧
    dequeAppend 2
        [(⟨[], 0, 0, [], false⟩ : Transition), ⟨[], 0, 0, [], true⟩]
        ⟨[], 1, 5, [], false⟩ =
      [(⟨[], 0, 0, [], true⟩ : Transition), ⟨[], 1, 5, [], false⟩] := by
  have h := (claim9_replay_capacity 2 (by decide)).2.2
    [⟨[], 0, 0, [], false⟩, ⟨[], 0, 0, [], true⟩] ⟨[], 1, 5, [], false⟩ rfl
  exact ⟨by decide, rfl, by simpa using h⟩
